import Mathlib

/-!
Verification of the persistent-state and reward-accrual ledger of the
bLuna custody contract (`contracts/custody_bluna/src/state.rs`).

The storage engine is modelled as an association list from byte keys to
decoded values: the record codec is external and assumed to be a
deterministic bidirectional mapping, so a stored record is represented by
a constructor of `Val` holding the decoded record, and undecodable bytes
by the `vraw` constructor.  `byteLe`/`byteLt` give the byte-lexicographic
key order that the ordered key-value store iterates in.  The byte-level
key layout — singleton records directly under their well-known literal
key, bucket records under the bucket's literal namespace followed by the
raw address bytes — follows the spec's storage-layout table, which fixes
the encoding realized by the external storage library; the literal key
and namespace constants themselves are taken from `state.rs`.
-/

set_option autoImplicit false

namespace CustodyState

/-- Raw byte strings (storage keys, canonical address bytes). -/
abbrev Bytes := List Nat

/-- Canonical address: raw byte form of an identity. -/
abbrev Addr := List Nat

/-- `moneymarket::custody::BAssetInfo`: descriptor of the collateral asset
(declared outside this file's source; fields per the collateral-asset
descriptor: name, symbol, decimals). -/
structure BAssetInfo where
  name : String
  symbol : String
  decimals : Nat
deriving DecidableEq, Repr

/-- `Config` from `state.rs`: addresses of cooperating contracts plus the
stable denomination and collateral-asset descriptor. -/
structure Config where
  owner : Addr
  collateral_token : Addr
  overseer_contract : Addr
  market_contract : Addr
  reward_contract : Addr
  liquidation_contract : Addr
  stable_denom : String
  basset_info : BAssetInfo
deriving DecidableEq, Repr

/-- `BorrowerInfo` from `state.rs`: collateral balance and spendable part.
`Uint256` is modelled as `Nat` (values in range are exact). -/
structure BorrowerInfo where
  balance : Nat
  spendable : Nat
deriving DecidableEq, Repr

/-- `UserRewards` from `state.rs`: snapshot of the global index at last
settlement and accumulated unclaimed rewards.  `Decimal256` is modelled as
its `Nat` numerator over the fixed denominator `10^18`. -/
structure UserRewards where
  user_index : Nat
  rewards : Nat
deriving DecidableEq, Repr

/-- Decoded content of a storage slot.  The external record codec is
bidirectional, so a slot either holds a decoded record of one of the four
families or bytes that decode as none of them (`vraw`). -/
inductive Val where
  | vconfig (c : Config)
  | vbinfo (b : BorrowerInfo)
  | vdec (d : Nat)
  | vurew (u : UserRewards)
  | vraw (bs : Bytes)
deriving DecidableEq, Repr

/-- The flat ordered key-value store, as an association list keyed by raw
bytes.  Physical iteration order is recovered by sorting keys. -/
abbrev Store := List (Bytes × Val)

/-- Storage-layer errors surfaced by loads (`StdError` in cosmwasm). -/
inductive StdError where
  | notFound
  | deserializeErr
deriving DecidableEq, Repr

/-- `KEY_CONFIG = b"config"`. -/
def KEY_CONFIG : Bytes := [99, 111, 110, 102, 105, 103]

/-- `PREFIX_BORROWER = b"borrower"`. -/
def PREFIX_BORROWER : Bytes := [98, 111, 114, 114, 111, 119, 101, 114]

/-- `KEY_GLOBAL_INDEX = b"global_index"`. -/
def KEY_GLOBAL_INDEX : Bytes := [103, 108, 111, 98, 97, 108, 95, 105, 110, 100, 101, 120]

/-- `PREFIX_USER_REWARDS = b"user_reward"`. -/
def PREFIX_USER_REWARDS : Bytes := [117, 115, 101, 114, 95, 114, 101, 119, 97, 114, 100]

/-- Raw get of the ordered key-value store. -/
def kvGet (s : Store) (k : Bytes) : Option Val :=
  (s.find? (fun e => e.1 == k)).map (fun e => e.2)

/-- Raw set of the ordered key-value store: overwrites any prior value. -/
def kvSet (s : Store) (k : Bytes) (v : Val) : Store :=
  (k, v) :: s.filter (fun e => !(e.1 == k))

/-- Raw delete of the ordered key-value store: no-op when the key is absent. -/
def kvDel (s : Store) (k : Bytes) : Store :=
  s.filter (fun e => !(e.1 == k))

/-- Modelled from the spec: the byte-level composition of a borrower
ledger key, `"borrower" ++ raw_address_bytes` per the storage-layout
table — the namespace encoding itself lives in the external storage
library, outside this repository's sources. -/
def borrowerKey (a : Addr) : Bytes := PREFIX_BORROWER ++ a

/-- Modelled from the spec: the byte-level composition of a user-rewards
key, `"user_reward" ++ raw_address_bytes` per the storage-layout table —
the namespace encoding itself lives in the external storage library,
outside this repository's sources. -/
def userRewardKey (a : Addr) : Bytes := PREFIX_USER_REWARDS ++ a

/-- `store_config`: persists Config at the singleton key, overwriting. -/
def store_config (s : Store) (c : Config) : Store :=
  kvSet s KEY_CONFIG (Val.vconfig c)

/-- `read_config`: loads Config; `NotFound` when absent, deserialize error
when the stored bytes decode as something other than a Config. -/
def read_config (s : Store) : Except StdError Config :=
  match kvGet s KEY_CONFIG with
  | none => Except.error StdError.notFound
  | some (Val.vconfig c) => Except.ok c
  | some _ => Except.error StdError.deserializeErr

/-- `store_borrower_info`: upserts the ledger entry keyed by the address. -/
def store_borrower_info (s : Store) (a : Addr) (info : BorrowerInfo) : Store :=
  kvSet s (borrowerKey a) (Val.vbinfo info)

/-- `remove_borrower_info`: deletes the ledger entry keyed by the address. -/
def remove_borrower_info (s : Store) (a : Addr) : Store :=
  kvDel s (borrowerKey a)

/-- `Bucket::load` for the borrower bucket: `NotFound` on miss, deserialize
error when the stored bytes decode as a different record family. -/
def loadBorrowerInfo (s : Store) (a : Addr) : Except StdError BorrowerInfo :=
  match kvGet s (borrowerKey a) with
  | none => Except.error StdError.notFound
  | some (Val.vbinfo b) => Except.ok b
  | some _ => Except.error StdError.deserializeErr

/-- `read_borrower_info`: `match load { Ok(v) => v, _ => zero default }` —
the wildcard arm turns every load failure into the zero default. -/
def read_borrower_info (s : Store) (a : Addr) : BorrowerInfo :=
  match loadBorrowerInfo s a with
  | Except.ok v => v
  | Except.error _ => { balance := 0, spendable := 0 }

/-- `save_global_index`: direct write of the global reward index. -/
def save_global_index (s : Store) (d : Nat) : Store :=
  kvSet s KEY_GLOBAL_INDEX (Val.vdec d)

/-- `Singleton::load` for the global index. -/
def loadGlobalIndex (s : Store) : Except StdError Nat :=
  match kvGet s KEY_GLOBAL_INDEX with
  | none => Except.error StdError.notFound
  | some (Val.vdec d) => Except.ok d
  | some _ => Except.error StdError.deserializeErr

/-- `read_global_index`: `load().unwrap_or(zero)` — every load failure
becomes zero. -/
def read_global_index (s : Store) : Nat :=
  match loadGlobalIndex s with
  | Except.ok d => d
  | Except.error _ => 0

/-- `Bucket::load` for the user-rewards bucket. -/
def loadUserRewards (s : Store) (a : Addr) : Except StdError UserRewards :=
  match kvGet s (userRewardKey a) with
  | none => Except.error StdError.notFound
  | some (Val.vurew u) => Except.ok u
  | some _ => Except.error StdError.deserializeErr

/-- `read_user_rewards`: `load(...).unwrap_or(default)` — every load
failure becomes the zero default. -/
def read_user_rewards (s : Store) (a : Addr) : UserRewards :=
  match loadUserRewards s a with
  | Except.ok u => u
  | Except.error _ => { user_index := 0, rewards := 0 }

/-- `save_user_rewards`: direct write of a borrower's rewards record. -/
def save_user_rewards (s : Store) (a : Addr) (u : UserRewards) : Store :=
  kvSet s (userRewardKey a) (Val.vurew u)

/-- Byte-lexicographic non-strict order on keys. -/
def byteLe : Bytes → Bytes → Bool
  | [], _ => true
  | _ :: _, [] => false
  | x :: xs, y :: ys => if x < y then true else if x = y then byteLe xs ys else false

/-- Byte-lexicographic strict order on keys. -/
def byteLt : Bytes → Bytes → Bool
  | [], [] => false
  | [], _ :: _ => true
  | _ :: _, [] => false
  | x :: xs, y :: ys => if x < y then true else if x = y then byteLt xs ys else false

/-- `MAX_LIMIT` from `state.rs`. -/
def MAX_LIMIT : Nat := 30

/-- `DEFAULT_LIMIT` from `state.rs`. -/
def DEFAULT_LIMIT : Nat := 10

/-- `limit.unwrap_or(DEFAULT_LIMIT).min(MAX_LIMIT)` from `read_borrowers`. -/
def eff_limit (limit : Option Nat) : Nat :=
  min (limit.getD DEFAULT_LIMIT) MAX_LIMIT

/-- `calc_range_start`: appends the byte 1 to the cursor address to obtain
the inclusive start bound of the range scan. -/
def calc_range_start (start_after : Option Addr) : Option Bytes :=
  start_after.map (fun a => a ++ [1])

/-- Insert an entry into a key-sorted list, keeping ascending key order. -/
def insertKey (e : Bytes × Val) : List (Bytes × Val) → List (Bytes × Val)
  | [] => [e]
  | f :: fs => if byteLe e.1 f.1 then e :: f :: fs else f :: insertKey e fs

/-- Sort bucket entries ascending by key: models the ordered store's
ascending-range iteration over the association list. -/
def sortKeys : List (Bytes × Val) → List (Bytes × Val)
  | [] => []
  | e :: es => insertKey e (sortKeys es)

/-- Entries of one bucket: keys carrying the bucket's namespace, with the
namespace stripped so that the remaining key is the raw address. -/
def bucketList (s : Store) (pre : Bytes) : List (Bytes × Val) :=
  (s.filter (fun e => pre.isPrefixOf e.1)).map (fun e => (e.1.drop pre.length, e.2))

/-- One row of the enumeration result.  The host api's address humanization
is modelled as the identity on canonical bytes, per the boundary contract
that enumeration returns (address, balance, spendable). -/
structure BorrowerResponse where
  borrower : Addr
  balance : Nat
  spendable : Nat
deriving DecidableEq, Repr

/-- The ascending range scan of `read_borrowers`: all borrower-bucket
entries with key at or above the computed start bound, in key order. -/
def range_entries (s : Store) (start_after : Option Addr) : List (Bytes × Val) :=
  match calc_range_start start_after with
  | none => sortKeys (bucketList s PREFIX_BORROWER)
  | some st => (sortKeys (bucketList s PREFIX_BORROWER)).filter (fun e => byteLe st e.1)

/-- The `map`/`collect` of `read_borrowers`: converts each scanned entry to
a response, aborting the whole page on the first undecodable value. -/
def collectResponses : List (Bytes × Val) → Except StdError (List BorrowerResponse)
  | [] => Except.ok []
  | e :: es =>
    match e.2 with
    | Val.vbinfo b =>
      match collectResponses es with
      | Except.ok rs => Except.ok ({ borrower := e.1, balance := b.balance, spendable := b.spendable } :: rs)
      | Except.error err => Except.error err
    | _ => Except.error StdError.deserializeErr

/-- `read_borrowers`: clamp the limit, compute the exclusive-start bound,
scan ascending, take the page, convert to responses. -/
def read_borrowers (s : Store) (start_after : Option Addr) (limit : Option Nat) :
    Except StdError (List BorrowerResponse) :=
  collectResponses ((range_entries s start_after).take (eff_limit limit))

/-- Fixed fractional denominator of `Decimal256`. -/
def E18 : Nat := 10 ^ 18

/-- Modelled from the spec: the settlement algorithm of the reward accrual
engine (spec section 4.3) is performed by callers of this module using the
storage primitives above; only its arithmetic contract appears in
`state.rs`, as the comment on `UserRewards`
(`rewards += (global_index - user_index) * n_collateral_units;
user_index = global_index`).  The pending increment is computed in the
decimal domain and reduced to the integer reward unit by rounding down,
which is the floor division by `E18` here. -/
def settle_rewards (ur : UserRewards) (g : Nat) (n : Nat) : UserRewards :=
  { user_index := g, rewards := ur.rewards + (g - ur.user_index) * n / E18 }

/-- The values observed by `read_global_index` after each save in a
sequence of `save_global_index` calls starting from store `s`. -/
def read_trace (s : Store) : List Nat → List Nat
  | [] => []
  | d :: ds => read_global_index (save_global_index s d) :: read_trace (save_global_index s d) ds

/-- A concrete Config value, used to instantiate theorems. -/
def sampleConfig : Config :=
  { owner := [10], collateral_token := [11], overseer_contract := [12],
    market_contract := [13], reward_contract := [14], liquidation_contract := [15],
    stable_denom := "uusd", basset_info := { name := "n", symbol := "s", decimals := 6 } }

/-! ### Basic facts about the key-value store -/

theorem find?_filter_superset {α : Type} (p q : α → Bool) (l : List α)
    (h : ∀ e, p e = true → q e = true) : (l.filter q).find? p = l.find? p := by
  induction l with
  | nil => rfl
  | cons e es ih =>
    cases hq : q e with
    | true =>
      cases hp : p e with
      | true => simp [List.filter_cons, hq, List.find?_cons, hp]
      | false => simp [List.filter_cons, hq, List.find?_cons, hp, ih]
    | false =>
      have hp : p e = false := by
        cases hpe : p e with
        | true => exact absurd (h e hpe) (by simp [hq])
        | false => rfl
      simp [List.filter_cons, hq, List.find?_cons, hp, ih]

theorem kvGet_set_same (s : Store) (k : Bytes) (v : Val) :
    kvGet (kvSet s k v) k = some v := by
  simp [kvGet, kvSet, List.find?_cons]

theorem kvGet_set_ne (s : Store) (k k' : Bytes) (v : Val) (h : k' ≠ k) :
    kvGet (kvSet s k v) k' = kvGet s k' := by
  have hk : (k == k') = false := by
    simp only [beq_eq_false_iff_ne, ne_eq]
    exact fun hkk => h hkk.symm
  have hf : (s.filter (fun e => !(e.1 == k))).find? (fun e => e.1 == k') =
      s.find? (fun e => e.1 == k') := by
    apply find?_filter_superset
    intro e he
    have h1 : e.1 = k' := by simpa using he
    simp only [h1, Bool.not_eq_eq_eq_not, Bool.not_true, beq_eq_false_iff_ne, ne_eq]
    exact h
  simp [kvGet, kvSet, List.find?_cons, hk, hf]

theorem kvGet_del_same (s : Store) (k : Bytes) : kvGet (kvDel s k) k = none := by
  simp only [kvGet, kvDel, Option.map_eq_none']
  rw [List.find?_eq_none]
  intro e he
  have := (List.mem_filter.mp he).2
  simpa using this

theorem kvGet_del_ne (s : Store) (k k' : Bytes) (h : k' ≠ k) :
    kvGet (kvDel s k) k' = kvGet s k' := by
  have hk : (k == k') = false := by
    simp only [beq_eq_false_iff_ne, ne_eq]
    exact fun hkk => h hkk.symm
  have hf : (s.filter (fun e => !(e.1 == k))).find? (fun e => e.1 == k') =
      s.find? (fun e => e.1 == k') := by
    apply find?_filter_superset
    intro e he
    have h1 : e.1 = k' := by simpa using he
    simp only [h1, Bool.not_eq_eq_eq_not, Bool.not_true, beq_eq_false_iff_ne, ne_eq]
    exact h
  simp [kvGet, kvDel, hf]

theorem kvDel_absent (s : Store) (k : Bytes) (h : kvGet s k = none) :
    kvDel s k = s := by
  simp only [kvGet, Option.map_eq_none'] at h
  rw [List.find?_eq_none] at h
  rw [kvDel, List.filter_eq_self]
  intro e he
  simpa using h e he

theorem kvDel_idem (s : Store) (k : Bytes) : kvDel (kvDel s k) k = kvDel s k := by
  simp [kvDel, List.filter_filter]

/-! ### Key-layout facts -/

theorem borrowerKey_inj {a b : Addr} (h : borrowerKey a = borrowerKey b) : a = b := by
  simpa [borrowerKey] using h

theorem userRewardKey_ne_borrowerKey (a b : Addr) : userRewardKey a ≠ borrowerKey b := by
  intro h
  simp [userRewardKey, borrowerKey, PREFIX_USER_REWARDS, PREFIX_BORROWER] at h

theorem config_ne_borrowerKey (b : Addr) : KEY_CONFIG ≠ borrowerKey b := by
  intro h
  simp [KEY_CONFIG, borrowerKey, PREFIX_BORROWER] at h

theorem global_ne_borrowerKey (b : Addr) : KEY_GLOBAL_INDEX ≠ borrowerKey b := by
  intro h
  simp [KEY_GLOBAL_INDEX, borrowerKey, PREFIX_BORROWER] at h

/-! ### Byte-lexicographic order facts -/

theorem byteLt_irrefl (a : Bytes) : byteLt a a = false := by
  induction a with
  | nil => rfl
  | cons x xs ih => simp [byteLt, ih]

theorem ne_of_byteLt {a b : Bytes} (h : byteLt a b = true) : a ≠ b := by
  intro hab
  rw [hab, byteLt_irrefl] at h
  exact Bool.false_ne_true h

theorem byteLe_eq_false_of_byteLt {a b : Bytes} (h : byteLt a b = true) :
    byteLe b a = false := by
  induction a generalizing b with
  | nil =>
    cases b with
    | nil => simp [byteLt] at h
    | cons y ys => simp [byteLe]
  | cons x xs ih =>
    cases b with
    | nil => simp [byteLt] at h
    | cons y ys =>
      simp only [byteLt] at h
      simp only [byteLe]
      by_cases hxy : x < y
      · have hne : ¬ y < x := Nat.lt_asymm hxy
        have hne2 : ¬ y = x := fun he => absurd (he ▸ hxy) (Nat.lt_irrefl x)
        simp [hne, hne2]
      · by_cases hyx : x = y
        · subst hyx
          simp only [hxy, if_false, if_pos rfl] at h
          simp [Nat.lt_irrefl, ih h]
        · simp [hxy, hyx] at h

theorem byteLt_trans {a b c : Bytes} (h1 : byteLt a b = true) (h2 : byteLt b c = true) :
    byteLt a c = true := by
  induction a generalizing b c with
  | nil =>
    cases c with
    | nil =>
      cases b with
      | nil => exact h1
      | cons y ys => simp [byteLt] at h2
    | cons z zs => simp [byteLt]
  | cons x xs ih =>
    cases b with
    | nil => simp [byteLt] at h1
    | cons y ys =>
      cases c with
      | nil => simp [byteLt] at h2
      | cons z zs =>
        simp only [byteLt] at h1 h2 ⊢
        by_cases hxy : x < y
        · by_cases hyz : y < z
          · simp [Nat.lt_trans hxy hyz]
          · by_cases heyz : y = z
            · simp [heyz ▸ hxy]
            · simp [hyz, heyz] at h2
        · by_cases hexy : x = y
          · subst hexy
            simp only [hxy, if_false, if_pos rfl] at h1
            by_cases hyz : x < z
            · simp [hyz]
            · by_cases heyz : x = z
              · subst heyz
                simp only [hyz, if_false, if_pos rfl] at h2
                simp [Nat.lt_irrefl, ih h1 h2]
              · simp [hyz, heyz] at h2
          · simp [hxy, hexy] at h1

theorem byteLe_append_cons_self (a : Bytes) (x : Nat) (l : Bytes) :
    byteLe (a ++ x :: l) a = false := by
  induction a with
  | nil => rfl
  | cons h t ih => simp [byteLe, Nat.lt_irrefl, ih]

theorem byteLe_append_of_byteLt_same_len {a b : Bytes} (l : Bytes)
    (hlen : a.length = b.length) (h : byteLt a b = true) :
    byteLe (a ++ l) b = true := by
  induction a generalizing b with
  | nil =>
    cases b with
    | nil => simp [byteLt] at h
    | cons y ys => simp at hlen
  | cons x xs ih =>
    cases b with
    | nil => simp at hlen
    | cons y ys =>
      simp only [List.length_cons, Nat.succ.injEq] at hlen
      simp only [byteLt] at h
      simp only [List.cons_append, byteLe]
      by_cases hxy : x < y
      · simp [hxy]
      · by_cases hexy : x = y
        · subst hexy
          simp only [hxy, if_false, if_pos rfl] at h
          simp [Nat.lt_irrefl, ih hlen h]
        · simp [hxy, hexy] at h

theorem ne_of_byteLe_append_one {a k : Bytes} (h : byteLe (a ++ [1]) k = true) :
    k ≠ a := by
  intro hk
  rw [hk, byteLe_append_cons_self] at h
  exact Bool.false_ne_true h

/-! ### Shared accessor facts -/

theorem read_save_global (s : Store) (d : Nat) :
    read_global_index (save_global_index s d) = d := by
  simp [read_global_index, loadGlobalIndex, save_global_index, kvGet_set_same]

theorem read_trace_eq (s : Store) (ds : List Nat) : read_trace s ds = ds := by
  induction ds generalizing s with
  | nil => rfl
  | cons d ds ih => simp [read_trace, read_save_global, ih]

theorem isPrefixOf_append_self (l t : Bytes) : l.isPrefixOf (l ++ t) = true := by
  induction l with
  | nil => simp [List.isPrefixOf]
  | cons x xs ih => simp [List.isPrefixOf, ih]

theorem collectResponses_length (l : List (Bytes × Val)) (r : List BorrowerResponse)
    (h : collectResponses l = Except.ok r) : r.length = l.length := by
  induction l generalizing r with
  | nil =>
    simp only [collectResponses] at h
    cases h
    rfl
  | cons e es ih =>
    unfold collectResponses at h
    split at h
    · split at h
      · cases h
        simp_all
      · cases h
    · cases h

theorem collectResponses_mem (l : List (Bytes × Val)) (res : List BorrowerResponse)
    (h : collectResponses l = Except.ok res) (r : BorrowerResponse) (hr : r ∈ res) :
    ∃ e ∈ l, r.borrower = e.1 := by
  induction l generalizing res with
  | nil =>
    simp only [collectResponses] at h
    cases h
    cases hr
  | cons e es ih =>
    unfold collectResponses at h
    split at h
    · split at h
      · cases h
        rcases List.mem_cons.mp hr with hr1 | hr2
        · exact ⟨e, List.mem_cons_self e es, by rw [hr1]⟩
        · obtain ⟨f, hf, hrf⟩ := ih _ (by assumption) hr2
          exact ⟨f, List.mem_cons_of_mem e hf, hrf⟩
      · cases h
    · cases h

/-! ### Claim C1 -/

/-- Claim C1: settlement of a borrower's rewards follows the checkpointed
accumulator formula — with global index `g`, stored user index `u ≤ g` and
collateral balance `n`, the pending increment is `(g − u) × n` reduced to
the reward unit by rounding down, the new rewards are the old rewards plus
the increment, and the new user index is `g`; settling a second time at
the same global index changes nothing; concretely, settling
`balance = 100`, `user_index = 0`, `rewards = 0` at global index 2 yields
`rewards = 200`, `user_index = 2`, and settling again leaves 200. -/
theorem c1_settlement_formula (ur : UserRewards) (g n : Nat) (h : ur.user_index ≤ g) :
    (settle_rewards ur g n).user_index = g ∧
    (settle_rewards ur g n).rewards = ur.rewards + (g - ur.user_index) * n / E18 ∧
    settle_rewards (settle_rewards ur g n) g n = settle_rewards ur g n ∧
    settle_rewards { user_index := 0, rewards := 0 } (2 * E18) 100 =
      { user_index := 2 * E18, rewards := 200 } := by
  refine ⟨rfl, rfl, ?_, ?_⟩
  · simp [settle_rewards]
  · simp only [settle_rewards, E18]
    norm_num

theorem c1_settlement_formula_witness :
    (settle_rewards { user_index := 0, rewards := 0 } (2 * E18) 100).user_index = 2 * E18 ∧
    (settle_rewards { user_index := 0, rewards := 0 } (2 * E18) 100).rewards =
      0 + (2 * E18 - 0) * 100 / E18 :=
  ⟨(c1_settlement_formula { user_index := 0, rewards := 0 } (2 * E18) 100 (Nat.zero_le _)).1,
   (c1_settlement_formula { user_index := 0, rewards := 0 } (2 * E18) 100 (Nat.zero_le _)).2.1⟩

/-! ### Claim C2 -/

/-- Claim C2 (amended): the three reads with a documented default return
the stored value when it decodes, and return the zero default on every
load failure — both when no record is stored and when the stored bytes
fail to decode; decode failures are swallowed into the default, never
surfaced to the caller. -/
theorem c2_default_swallows_errors (s : Store) (a : Addr) :
    (∀ v, loadBorrowerInfo s a = Except.ok v → read_borrower_info s a = v) ∧
    (∀ e, loadBorrowerInfo s a = Except.error e →
      read_borrower_info s a = { balance := 0, spendable := 0 }) ∧
    (∀ v, loadUserRewards s a = Except.ok v → read_user_rewards s a = v) ∧
    (∀ e, loadUserRewards s a = Except.error e →
      read_user_rewards s a = { user_index := 0, rewards := 0 }) ∧
    (∀ v, loadGlobalIndex s = Except.ok v → read_global_index s = v) ∧
    (∀ e, loadGlobalIndex s = Except.error e → read_global_index s = 0) := by
  refine ⟨?_, ?_, ?_, ?_, ?_, ?_⟩ <;> intro x hx <;>
    simp [read_borrower_info, read_user_rewards, read_global_index, hx]

/-- Claim C2 is false on the code: with corrupt stored bytes under each
key, the load reports a deserialize error, yet the read returns the zero
default instead of failing. -/
theorem c2_reads_swallow_deserialize :
    loadBorrowerInfo [(borrowerKey [7], Val.vraw [0])] [7] =
      Except.error StdError.deserializeErr ∧
    read_borrower_info [(borrowerKey [7], Val.vraw [0])] [7] =
      { balance := 0, spendable := 0 } ∧
    loadUserRewards [(userRewardKey [7], Val.vraw [0])] [7] =
      Except.error StdError.deserializeErr ∧
    read_user_rewards [(userRewardKey [7], Val.vraw [0])] [7] =
      { user_index := 0, rewards := 0 } ∧
    loadGlobalIndex [(KEY_GLOBAL_INDEX, Val.vraw [0])] =
      Except.error StdError.deserializeErr ∧
    read_global_index [(KEY_GLOBAL_INDEX, Val.vraw [0])] = 0 :=
  ⟨rfl, rfl, rfl, rfl, rfl, rfl⟩

theorem c2_default_swallows_errors_witness :
    read_borrower_info [] [3] = { balance := 0, spendable := 0 } ∧
    read_user_rewards [] [3] = { user_index := 0, rewards := 0 } :=
  ⟨(c2_default_swallows_errors [] [3]).2.1 StdError.notFound rfl,
   (c2_default_swallows_errors [] [3]).2.2.2.1 StdError.notFound rfl⟩

/-! ### Claim C4 -/

/-- Claim C4 (amended): the effective page size of `read_borrowers` is the
given limit capped above at 30, defaulting to 10 when absent — there is no
lower clamp to 1, so an explicit limit of 0 yields an empty page; with
limit 100 at most 30 entries are returned, and the number of returned
entries never exceeds the effective limit. -/
theorem c4_limit_capped (s : Store) (sa : Option Addr) (l : Option Nat)
    (res : List BorrowerResponse) (h : read_borrowers s sa l = Except.ok res) :
    res.length ≤ eff_limit l ∧ eff_limit l ≤ MAX_LIMIT ∧
    eff_limit none = DEFAULT_LIMIT ∧ (l = some 100 → res.length ≤ 30) := by
  have hlen : res.length = ((range_entries s sa).take (eff_limit l)).length :=
    collectResponses_length _ _ h
  have hle : res.length ≤ eff_limit l := by
    rw [hlen, List.length_take]
    exact min_le_left _ _
  refine ⟨hle, min_le_right _ _, rfl, ?_⟩
  intro hl
  subst hl
  exact hle

/-- Claim C4 is false on the code as stated: the limit is not clamped to
the interval `[1, 30]` — an explicit limit of 0 gives an effective page
size of 0, and a page with no entries is returned even though a borrower
is stored. -/
theorem c4_no_lower_clamp :
    eff_limit (some 0) = 0 ∧ ¬ 1 ≤ eff_limit (some 0) ∧
    read_borrowers (store_borrower_info [] [7] { balance := 1, spendable := 1 })
      none (some 0) = Except.ok [] :=
  ⟨rfl, by decide, rfl⟩

theorem c4_limit_capped_witness :
    ([] : List BorrowerResponse).length ≤ eff_limit (some 100) ∧
    eff_limit (some 100) ≤ MAX_LIMIT ∧ eff_limit none = DEFAULT_LIMIT ∧
    (some 100 = some 100 → ([] : List BorrowerResponse).length ≤ 30) :=
  c4_limit_capped [] none (some 100) [] rfl

/-! ### Claim C5 -/

/-- Claim C5 (amended): the value observed by `read_global_index` after
each `save_global_index` call is exactly the value just saved, so reads
are non-decreasing across a sequence of saves precisely when the sequence
of saved values is non-decreasing; the storage layer itself enforces no
monotonicity. -/
theorem c5_reads_follow_saves (s : Store) (ds : List Nat) :
    read_trace s ds = ds ∧
    (List.Chain' (· ≤ ·) ds → List.Chain' (· ≤ ·) (read_trace s ds)) :=
  ⟨read_trace_eq s ds, fun h => (read_trace_eq s ds).symm ▸ h⟩

/-- Claim C5 is false on the code as stated: `save_global_index` accepts a
smaller value, after which a later read yields less than an earlier read. -/
theorem c5_save_can_decrease :
    read_global_index (save_global_index ([] : Store) 5) = 5 ∧
    read_global_index (save_global_index (save_global_index ([] : Store) 5) 3) = 3 ∧
    ¬ 5 ≤ 3 :=
  ⟨rfl, rfl, by decide⟩

theorem c5_reads_follow_saves_witness :
    read_trace [] [1, 2] = [1, 2] ∧ List.Chain' (· ≤ ·) (read_trace [] [1, 2]) :=
  ⟨(c5_reads_follow_saves [] [1, 2]).1, (c5_reads_follow_saves [] [1, 2]).2 (by simp)⟩

/-! ### Claim C6 -/

/-- Claim C6: for every address never written, `read_borrower_info`
returns the zero BorrowerInfo and `read_user_rewards` the zero
UserRewards, and `read_global_index` returns zero when never written; by
contrast `read_config` on a store with no stored Config fails with an
error rather than returning a default. -/
theorem c6_defaults_and_config_error (s : Store) (a : Addr)
    (hb : kvGet s (borrowerKey a) = none)
    (hu : kvGet s (userRewardKey a) = none)
    (hg : kvGet s KEY_GLOBAL_INDEX = none)
    (hc : kvGet s KEY_CONFIG = none) :
    read_borrower_info s a = { balance := 0, spendable := 0 } ∧
    read_user_rewards s a = { user_index := 0, rewards := 0 } ∧
    read_global_index s = 0 ∧
    read_config s = Except.error StdError.notFound := by
  refine ⟨?_, ?_, ?_, ?_⟩
  · simp [read_borrower_info, loadBorrowerInfo, hb]
  · simp [read_user_rewards, loadUserRewards, hu]
  · simp [read_global_index, loadGlobalIndex, hg]
  · simp [read_config, hc]

theorem c6_defaults_and_config_error_witness :
    read_borrower_info [] [0] = { balance := 0, spendable := 0 } ∧
    read_user_rewards [] [0] = { user_index := 0, rewards := 0 } ∧
    read_global_index [] = 0 ∧
    read_config [] = Except.error StdError.notFound :=
  c6_defaults_and_config_error [] [0] rfl rfl rfl rfl

/-! ### Claim C8 -/

/-- Claim C8: for every record type — Config, BorrowerInfo, the global
index, and UserRewards — saving a value and reading it back under the same
key returns a value equal to the one saved. -/
theorem c8_round_trip (s : Store) (a : Addr) (c : Config) (b : BorrowerInfo)
    (d : Nat) (u : UserRewards) :
    read_config (store_config s c) = Except.ok c ∧
    read_borrower_info (store_borrower_info s a b) a = b ∧
    read_global_index (save_global_index s d) = d ∧
    read_user_rewards (save_user_rewards s a u) a = u := by
  refine ⟨?_, ?_, read_save_global s d, ?_⟩
  · simp [read_config, store_config, kvGet_set_same]
  · simp [read_borrower_info, loadBorrowerInfo, store_borrower_info, kvGet_set_same]
  · simp [read_user_rewards, loadUserRewards, save_user_rewards, kvGet_set_same]

/-! ### Claim C9 -/

/-- Claim C9: `remove_borrower_info` is idempotent and total — removing an
absent entry is a no-op on the store rather than an error, removing twice
equals removing once, and a subsequent `read_borrower_info` returns the
zero default. -/
theorem c9_remove_idempotent_total (s : Store) (a : Addr) :
    (kvGet s (borrowerKey a) = none → remove_borrower_info s a = s) ∧
    remove_borrower_info (remove_borrower_info s a) a = remove_borrower_info s a ∧
    read_borrower_info (remove_borrower_info s a) a = { balance := 0, spendable := 0 } := by
  refine ⟨fun h => kvDel_absent s (borrowerKey a) h, kvDel_idem s (borrowerKey a), ?_⟩
  simp [read_borrower_info, loadBorrowerInfo, remove_borrower_info, kvGet_del_same]

theorem c9_remove_idempotent_total_witness :
    remove_borrower_info [] [0] = [] ∧
    remove_borrower_info (remove_borrower_info [] [0]) [0] = remove_borrower_info [] [0] ∧
    read_borrower_info (remove_borrower_info [] [0]) [0] = { balance := 0, spendable := 0 } :=
  ⟨(c9_remove_idempotent_total [] [0]).1 rfl,
   (c9_remove_idempotent_total [] [0]).2.1,
   (c9_remove_idempotent_total [] [0]).2.2⟩

/-! ### Claim C10 -/

/-- Claim C10: `store_borrower_info` for borrower `b` modifies only `b`'s
ledger entry — every other borrower's ledger entry, every user-rewards
record, the global index and the Config read the same as before — and it
accepts any BorrowerInfo without validation, including one with spendable
greater than balance, which then reads back unchanged. -/
theorem c10_store_borrower_frame (s : Store) (b b' a : Addr) (i : BorrowerInfo)
    (h : b' ≠ b) :
    read_borrower_info (store_borrower_info s b i) b' = read_borrower_info s b' ∧
    read_user_rewards (store_borrower_info s b i) a = read_user_rewards s a ∧
    read_global_index (store_borrower_info s b i) = read_global_index s ∧
    read_config (store_borrower_info s b i) = read_config s ∧
    read_borrower_info (store_borrower_info s b i) b = i := by
  have hkey : borrowerKey b' ≠ borrowerKey b := fun he => h (borrowerKey_inj he)
  refine ⟨?_, ?_, ?_, ?_, ?_⟩
  · simp [read_borrower_info, loadBorrowerInfo, store_borrower_info,
      kvGet_set_ne _ _ _ _ hkey]
  · simp [read_user_rewards, loadUserRewards, store_borrower_info,
      kvGet_set_ne _ _ _ _ (userRewardKey_ne_borrowerKey a b)]
  · simp [read_global_index, loadGlobalIndex, store_borrower_info,
      kvGet_set_ne _ _ _ _ (global_ne_borrowerKey b)]
  · simp [read_config, store_borrower_info,
      kvGet_set_ne _ _ _ _ (config_ne_borrowerKey b)]
  · simp [read_borrower_info, loadBorrowerInfo, store_borrower_info, kvGet_set_same]

theorem c10_store_borrower_frame_witness :
    read_borrower_info (store_borrower_info [] [1] { balance := 0, spendable := 5 }) [2] =
      read_borrower_info [] [2] ∧
    read_user_rewards (store_borrower_info [] [1] { balance := 0, spendable := 5 }) [1] =
      read_user_rewards [] [1] ∧
    read_global_index (store_borrower_info [] [1] { balance := 0, spendable := 5 }) =
      read_global_index [] ∧
    read_config (store_borrower_info [] [1] { balance := 0, spendable := 5 }) =
      read_config [] ∧
    read_borrower_info (store_borrower_info [] [1] { balance := 0, spendable := 5 }) [1] =
      { balance := 0, spendable := 5 } :=
  c10_store_borrower_frame [] [1] [2] [1] { balance := 0, spendable := 5 } (by decide)

/-! ### Claim C3 -/

/-- Claim C3: `read_borrowers` treats `start_after` as a strictly
exclusive lower bound and returns entries ascending by raw address bytes:
with borrowers stored at fixed-length raw addresses `a < b < c`,
`read_borrowers (start_after = a) (limit = 10)` returns exactly the rows
for `b` and `c` in that order; and for every store and limit, the cursor
address itself is never among the returned rows. -/
theorem c3_pagination_exclusive (a b c : Addr) (ia ib ic : BorrowerInfo)
    (hab : byteLt a b = true) (hbc : byteLt b c = true)
    (hlab : a.length = b.length) (hlbc : b.length = c.length) :
    read_borrowers
        (store_borrower_info (store_borrower_info (store_borrower_info [] a ia) b ib) c ic)
        (some a) (some 10) =
      Except.ok [{ borrower := b, balance := ib.balance, spendable := ib.spendable },
                 { borrower := c, balance := ic.balance, spendable := ic.spendable }] ∧
    (∀ (s : Store) (lim : Option Nat) (res : List BorrowerResponse),
      read_borrowers s (some a) lim = Except.ok res → ∀ r ∈ res, r.borrower ≠ a) := by
  constructor
  · have hac : byteLt a c = true := byteLt_trans hab hbc
    have hne_ab : borrowerKey a ≠ borrowerKey b :=
      fun he => ne_of_byteLt hab (borrowerKey_inj he)
    have hne_ac : borrowerKey a ≠ borrowerKey c :=
      fun he => ne_of_byteLt hac (borrowerKey_inj he)
    have hne_bc : borrowerKey b ≠ borrowerKey c :=
      fun he => ne_of_byteLt hbc (borrowerKey_inj he)
    have hS : store_borrower_info (store_borrower_info (store_borrower_info [] a ia) b ib) c ic
        = [(borrowerKey c, Val.vbinfo ic), (borrowerKey b, Val.vbinfo ib),
           (borrowerKey a, Val.vbinfo ia)] := by
      simp [store_borrower_info, kvSet, List.filter_cons, hne_ab, hne_ac, hne_bc]
    have hpre : ∀ x : Addr, PREFIX_BORROWER.isPrefixOf (borrowerKey x) = true :=
      fun x => isPrefixOf_append_self PREFIX_BORROWER x
    have hdrop : ∀ x : Addr, (borrowerKey x).drop PREFIX_BORROWER.length = x :=
      fun x => List.drop_left PREFIX_BORROWER x
    have hB : bucketList
        [(borrowerKey c, Val.vbinfo ic), (borrowerKey b, Val.vbinfo ib),
         (borrowerKey a, Val.vbinfo ia)] PREFIX_BORROWER
        = [(c, Val.vbinfo ic), (b, Val.vbinfo ib), (a, Val.vbinfo ia)] := by
      simp [bucketList, List.filter_cons, hpre, hdrop]
    have hle_ba : byteLe b a = false := byteLe_eq_false_of_byteLt hab
    have hle_ca : byteLe c a = false := byteLe_eq_false_of_byteLt hac
    have hle_cb : byteLe c b = false := byteLe_eq_false_of_byteLt hbc
    have hsort : sortKeys [(c, Val.vbinfo ic), (b, Val.vbinfo ib), (a, Val.vbinfo ia)]
        = [(a, Val.vbinfo ia), (b, Val.vbinfo ib), (c, Val.vbinfo ic)] := by
      simp [sortKeys, insertKey, hle_ba, hle_ca, hle_cb]
    have hs1 : byteLe (a ++ [1]) a = false := byteLe_append_cons_self a 1 []
    have hs2 : byteLe (a ++ [1]) b = true := byteLe_append_of_byteLt_same_len [1] hlab hab
    have hs3 : byteLe (a ++ [1]) c = true :=
      byteLe_append_of_byteLt_same_len [1] (hlab.trans hlbc) hac
    rw [read_borrowers, hS]
    rw [range_entries, calc_range_start]
    simp only [Option.map_some']
    rw [hB, hsort]
    simp only [List.filter_cons, hs1, hs2, hs3, List.filter_nil]
    simp [eff_limit, DEFAULT_LIMIT, MAX_LIMIT, List.take, collectResponses]
  · intro s lim res hres r hr
    obtain ⟨e, he, hre⟩ := collectResponses_mem _ _ hres r hr
    have he2 : e ∈ (sortKeys (bucketList s PREFIX_BORROWER)).filter
        (fun f => byteLe (a ++ [1]) f.1) := by
      have he1 := List.mem_of_mem_take he
      simpa [range_entries, calc_range_start] using he1
    have hkeep : byteLe (a ++ [1]) e.1 = true := by
      have := (List.mem_filter.mp he2).2
      simpa using this
    rw [hre]
    exact ne_of_byteLe_append_one hkeep

theorem c3_pagination_exclusive_witness :
    read_borrowers
        (store_borrower_info (store_borrower_info (store_borrower_info []
          [1] { balance := 10, spendable := 4 })
          [2] { balance := 20, spendable := 5 })
          [3] { balance := 30, spendable := 6 })
        (some [1]) (some 10) =
      Except.ok [{ borrower := [2], balance := 20, spendable := 5 },
                 { borrower := [3], balance := 30, spendable := 6 }] :=
  (c3_pagination_exclusive [1] [2] [3]
    { balance := 10, spendable := 4 } { balance := 20, spendable := 5 }
    { balance := 30, spendable := 6 } rfl rfl rfl rfl).1

/-! ### Claim C7 -/

theorem isPrefixOf_ne_of_true_false {pre k1 k2 : Bytes}
    (h1 : pre.isPrefixOf k1 = true) (h2 : pre.isPrefixOf k2 = false) : k1 ≠ k2 := by
  intro he
  rw [he, h2] at h1
  exact Bool.false_ne_true h1

/-- Writing under a key that does not carry a bucket's namespace leaves
that bucket's range scan unchanged: the store's bucket view is decided by
the key prefix alone. -/
theorem bucketList_kvSet_other (s : Store) (pre k : Bytes) (v : Val)
    (h : pre.isPrefixOf k = false) :
    bucketList (kvSet s k v) pre = bucketList s pre := by
  simp only [bucketList, kvSet, List.filter_cons, h, Bool.false_eq_true, if_false]
  rw [List.filter_filter]
  congr 1
  apply List.filter_congr
  intro e _
  cases hpe : pre.isPrefixOf e.1 with
  | false => simp [hpe]
  | true =>
    have hne : e.1 ≠ k := isPrefixOf_ne_of_true_false hpe h
    simp [hpe, hne]

/-- Claim C7: each record family is stored under exactly the documented
byte keys — Config at `"config"`, the global index at `"global_index"`,
each BorrowerInfo at `"borrower" ++ raw_address_bytes`, each UserRewards
at `"user_reward" ++ raw_address_bytes`; the four prefixes are pairwise
distinct and none is a prefix of another; keys of different families
never collide; and a range scan over one family's bucket never observes
an entry of a different family — writing any other family's record
leaves the bucket's scan unchanged, and a store holding only the other
three families yields an empty borrower-bucket scan. -/
theorem c7_namespace_layout (s : Store) (a b : Addr) (c : Config)
    (i : BorrowerInfo) (d : Nat) (u : UserRewards) :
    (store_config s c = kvSet s KEY_CONFIG (Val.vconfig c) ∧
     save_global_index s d = kvSet s KEY_GLOBAL_INDEX (Val.vdec d) ∧
     store_borrower_info s a i = kvSet s (PREFIX_BORROWER ++ a) (Val.vbinfo i) ∧
     save_user_rewards s a u = kvSet s (PREFIX_USER_REWARDS ++ a) (Val.vurew u)) ∧
    (KEY_CONFIG ≠ KEY_GLOBAL_INDEX ∧ KEY_CONFIG ≠ PREFIX_BORROWER ∧
     KEY_CONFIG ≠ PREFIX_USER_REWARDS ∧ KEY_GLOBAL_INDEX ≠ PREFIX_BORROWER ∧
     KEY_GLOBAL_INDEX ≠ PREFIX_USER_REWARDS ∧ PREFIX_BORROWER ≠ PREFIX_USER_REWARDS ∧
     KEY_CONFIG.isPrefixOf KEY_GLOBAL_INDEX = false ∧
     KEY_CONFIG.isPrefixOf PREFIX_BORROWER = false ∧
     KEY_CONFIG.isPrefixOf PREFIX_USER_REWARDS = false ∧
     KEY_GLOBAL_INDEX.isPrefixOf KEY_CONFIG = false ∧
     KEY_GLOBAL_INDEX.isPrefixOf PREFIX_BORROWER = false ∧
     KEY_GLOBAL_INDEX.isPrefixOf PREFIX_USER_REWARDS = false ∧
     PREFIX_BORROWER.isPrefixOf KEY_CONFIG = false ∧
     PREFIX_BORROWER.isPrefixOf KEY_GLOBAL_INDEX = false ∧
     PREFIX_BORROWER.isPrefixOf PREFIX_USER_REWARDS = false ∧
     PREFIX_USER_REWARDS.isPrefixOf KEY_CONFIG = false ∧
     PREFIX_USER_REWARDS.isPrefixOf KEY_GLOBAL_INDEX = false ∧
     PREFIX_USER_REWARDS.isPrefixOf PREFIX_BORROWER = false) ∧
    (borrowerKey a ≠ KEY_CONFIG ∧
     borrowerKey a ≠ KEY_GLOBAL_INDEX ∧
     userRewardKey a ≠ KEY_CONFIG ∧
     userRewardKey a ≠ KEY_GLOBAL_INDEX ∧
     borrowerKey a ≠ userRewardKey b ∧
     PREFIX_BORROWER.isPrefixOf (userRewardKey b) = false ∧
     PREFIX_USER_REWARDS.isPrefixOf (borrowerKey b) = false) ∧
    (bucketList (store_config s c) PREFIX_BORROWER = bucketList s PREFIX_BORROWER ∧
     bucketList (save_global_index s d) PREFIX_BORROWER = bucketList s PREFIX_BORROWER ∧
     bucketList (save_user_rewards s b u) PREFIX_BORROWER = bucketList s PREFIX_BORROWER ∧
     bucketList (store_borrower_info s b i) PREFIX_USER_REWARDS =
       bucketList s PREFIX_USER_REWARDS ∧
     bucketList (store_config s c) PREFIX_USER_REWARDS = bucketList s PREFIX_USER_REWARDS ∧
     bucketList (save_global_index s d) PREFIX_USER_REWARDS =
       bucketList s PREFIX_USER_REWARDS ∧
     bucketList [(KEY_CONFIG, Val.vconfig c), (KEY_GLOBAL_INDEX, Val.vdec d),
       (userRewardKey b, Val.vurew u)] PREFIX_BORROWER = []) := by
  have hub : PREFIX_BORROWER.isPrefixOf (userRewardKey b) = false := by
    simp [List.isPrefixOf, PREFIX_BORROWER, userRewardKey, PREFIX_USER_REWARDS]
  have hbu : PREFIX_USER_REWARDS.isPrefixOf (borrowerKey b) = false := by
    simp [List.isPrefixOf, PREFIX_USER_REWARDS, borrowerKey, PREFIX_BORROWER]
  have hbc0 : PREFIX_BORROWER.isPrefixOf KEY_CONFIG = false := by decide
  have hbg0 : PREFIX_BORROWER.isPrefixOf KEY_GLOBAL_INDEX = false := by decide
  have huc0 : PREFIX_USER_REWARDS.isPrefixOf KEY_CONFIG = false := by decide
  have hug0 : PREFIX_USER_REWARDS.isPrefixOf KEY_GLOBAL_INDEX = false := by decide
  refine ⟨⟨rfl, rfl, rfl, rfl⟩,
    ⟨by decide, by decide, by decide, by decide, by decide, by decide,
     by decide, by decide, by decide, by decide, by decide, by decide,
     hbc0, hbg0, by decide, huc0, hug0, by decide⟩,
    ⟨Ne.symm (config_ne_borrowerKey a), Ne.symm (global_ne_borrowerKey a),
     ?_, ?_, fun he => userRewardKey_ne_borrowerKey b a he.symm, hub, hbu⟩,
    ⟨bucketList_kvSet_other s PREFIX_BORROWER KEY_CONFIG (Val.vconfig c) hbc0,
     bucketList_kvSet_other s PREFIX_BORROWER KEY_GLOBAL_INDEX (Val.vdec d) hbg0,
     bucketList_kvSet_other s PREFIX_BORROWER (userRewardKey b) (Val.vurew u) hub,
     bucketList_kvSet_other s PREFIX_USER_REWARDS (borrowerKey b) (Val.vbinfo i) hbu,
     bucketList_kvSet_other s PREFIX_USER_REWARDS KEY_CONFIG (Val.vconfig c) huc0,
     bucketList_kvSet_other s PREFIX_USER_REWARDS KEY_GLOBAL_INDEX (Val.vdec d) hug0,
     ?_⟩⟩
  · intro he
    simp [userRewardKey, KEY_CONFIG, PREFIX_USER_REWARDS] at he
  · intro he
    simp [userRewardKey, KEY_GLOBAL_INDEX, PREFIX_USER_REWARDS] at he
  · simp [bucketList, List.filter_cons, hub, hbc0, hbg0]

theorem c7_namespace_layout_witness :
    store_config [] sampleConfig = kvSet [] KEY_CONFIG (Val.vconfig sampleConfig) ∧
    borrowerKey [4] ≠ userRewardKey [5] ∧
    bucketList (save_user_rewards [] [5] { user_index := 0, rewards := 0 })
      PREFIX_BORROWER = bucketList [] PREFIX_BORROWER ∧
    bucketList [(KEY_CONFIG, Val.vconfig sampleConfig), (KEY_GLOBAL_INDEX, Val.vdec 0),
      (userRewardKey [5], Val.vurew { user_index := 0, rewards := 0 })]
      PREFIX_BORROWER = [] := by
  obtain ⟨⟨hshape, -, -, -⟩, -, ⟨-, -, -, -, hneq, -, -⟩, ⟨-, -, hiso, -, -, -, hempty⟩⟩ :=
    c7_namespace_layout [] [4] [5] sampleConfig
      { balance := 0, spendable := 0 } 0 { user_index := 0, rewards := 0 }
  exact ⟨hshape, hneq, hiso, hempty⟩

theorem c8_round_trip_witness :
    read_global_index (save_global_index [] 7) = 7 ∧
    read_user_rewards (save_user_rewards [] [9] { user_index := 3, rewards := 4 }) [9] =
      { user_index := 3, rewards := 4 } :=
  ⟨(c8_round_trip [] [9] sampleConfig { balance := 0, spendable := 0 } 7
      { user_index := 3, rewards := 4 }).2.2.1,
   (c8_round_trip [] [9] sampleConfig { balance := 0, spendable := 0 } 7
      { user_index := 3, rewards := 4 }).2.2.2⟩

end CustodyState
